import Mathlib

/-!
Verification of the `hms-securestorage` secret-storage library.

This file gives a shallow embedding of the library's two backends:

* the encrypted local store (`LocalStore` in the Go source): a JSON file
  mapping secret key → ciphertext, mirrored in memory, with a
  freshness-check (`reloadIfChanged`) run at the start of every public
  operation;
* the remote secret adapter (`VaultAdapter`): an authenticate-and-retry
  state machine wrapping a network client capability.

File-system effects are made explicit: every operation takes the current
state of the backing file and the nondeterministic outcome of a write
(`SaveOutcome`) as arguments and returns the new store state together with
the new file state.  Machine-level details that the source delegates to
external collaborators (AES-GCM, JSON marshalling, the Vault network
client) are modelled symbolically, following the spec's black-box
treatment of them.
-/

namespace SecureStorage

/-- A field of a structured secret value: the canonical generic mapping the
source produces with `mapstructure.Decode` maps field names to either
strings or raw byte payloads. -/
inductive FieldVal where
  | str : String → FieldVal
  | bytes : List Nat → FieldVal
deriving DecidableEq

/-- The canonical structured value: field name → field value, as produced
by `mapstructure.Decode(value, &data)` in `LocalStore.Store`. -/
abbrev ValueMap := List (String × FieldVal)

/-- A derived per-secret AES key, determined by (master key, secret key). -/
structure DKey where
  master : List Nat
  secret : String
deriving DecidableEq

/-- Modelled from the spec: `deriveAESKey` (crypto helper absent from the
provided sources) is a deterministic one-way function of
(masterKey, secretKey); we model it symbolically as the pair itself. -/
def deriveAESKey (masterKey : List Nat) (key : String) : DKey :=
  ⟨masterKey, key⟩

/-- A ciphertext string, modelled symbolically: AES-GCM output is
determined by the key, the fresh random nonce and the plaintext. -/
structure Cipher where
  nonce : Nat
  dkey : DKey
  payload : ValueMap
deriving DecidableEq

/-- Modelled from the spec: `encryptAESGCM` (crypto helper absent from the
provided sources) encrypts the serialized value under the derived key with
a fresh random nonce embedded in the ciphertext. -/
def encryptAESGCM (k : DKey) (data : ValueMap) (nonce : Nat) : Cipher :=
  ⟨nonce, k, data⟩

/-- Modelled from the spec: `decryptAESGCM` (crypto helper absent from the
provided sources) is authenticated decryption: it recovers the plaintext
exactly when the key matches, and fails on any mismatch or tampering. -/
def decryptAESGCM (k : DKey) (c : Cipher) : Option ValueMap :=
  if c.dkey = k then some c.payload else none

/-- The on-disk / in-memory secrets mapping: secret key → ciphertext
(`map[string]string` in the source, the ciphertext string modelled by
`Cipher`). -/
abbrev SMap := List (String × Cipher)

/-- Go map read `m[k]`. -/
def smapFind (m : SMap) (k : String) : Option Cipher :=
  match m with
  | [] => none
  | (k₀, c₀) :: rest => if k₀ = k then some c₀ else smapFind rest k

/-- Go map write `m[k] = c`: overwrite in place, or append a new entry. -/
def smapInsert (m : SMap) (k : String) (c : Cipher) : SMap :=
  match m with
  | [] => [(k, c)]
  | (k₀, c₀) :: rest =>
      if k₀ = k then (k₀, c) :: rest else (k₀, c₀) :: smapInsert rest k c

/-- Go `delete(m, k)`. -/
def smapErase (m : SMap) (k : String) : SMap :=
  match m with
  | [] => []
  | (k₀, c₀) :: rest =>
      if k₀ = k then smapErase rest k else (k₀, c₀) :: smapErase rest k

/-- Go `for key := range m`: the list of keys of the mapping. -/
def smapKeys (m : SMap) : List String := m.map (fun e => e.1)

/-- The state of the backing JSON file, as the store's file-system calls
observe it: `stat` can fail (file absent), the file can carry a
modification time but unparseable content, or it holds a well-formed JSON
document holding the secrets mapping. -/
inductive FsFile where
  | absent
  | unreadable (modTime : Nat)
  | good (modTime : Nat) (data : SMap)
deriving DecidableEq

/-- The distinguishable errors the local store returns (the source builds
them with `fmt.Errorf`; we keep one constructor per distinct message). -/
inductive GoErr where
  | statFailed
  | loadFailed
  | emptyKey
  | nilValue
  | notFound (key : String)
  | decryptFailed
  | saveFailed
  | saveAfterDeleteFailed
  | noSecrets
deriving DecidableEq

/-- `getModTime`: `os.Stat` then `ModTime()`. -/
def getModTime (f : FsFile) : Except GoErr Nat :=
  match f with
  | .absent => .error .statFailed
  | .unreadable t => .ok t
  | .good t _ => .ok t

/-- `loadSecrets`: open and JSON-decode the secrets file. -/
def loadSecrets (f : FsFile) : Except GoErr SMap :=
  match f with
  | .good _ m => .ok m
  | _ => .error .loadFailed

/-- The in-memory state of a `LocalStore` instance (the `sync.RWMutex` and
the file name are omitted: the model is sequential and single-file). -/
structure LocalStore where
  masterKey : List Nat
  secrets : SMap
  lastModTime : Nat
deriving DecidableEq

/-- The nondeterministic outcome of one `SaveSecrets` call:
either the write succeeds and the file carries a new modification time,
or it fails before touching the file (`os.OpenFile` error), or it fails
after the `O_TRUNC` open (encode/sync error), leaving the file unreadable. -/
inductive SaveOutcome where
  | ok (newTime : Nat)
  | failBeforeWrite
  | failAfterTruncate (newTime : Nat)
deriving DecidableEq

/-- `SaveSecrets`: rewrite the whole file with the mapping, flush and sync;
returns the error (if any) and the resulting file state. -/
def SaveSecrets (sv : SaveOutcome) (m : SMap) (f : FsFile) :
    Option GoErr × FsFile :=
  match sv with
  | .ok t => (none, .good t m)
  | .failBeforeWrite => (some .saveFailed, f)
  | .failAfterTruncate t => (some .saveFailed, .unreadable t)

/-- `LocalStore.reloadIfChanged`: compare the file's current modification
time with the last observed one; when the file is newer, replace the whole
in-memory mapping by a fresh load and record the new time. -/
def LocalStore.reloadIfChanged (l : LocalStore) (f : FsFile) :
    Except GoErr LocalStore :=
  match getModTime f with
  | .error e => .error e
  | .ok t =>
      if l.lastModTime < t then
        match loadSecrets f with
        | .error e => .error e
        | .ok m => .ok { l with secrets := m, lastModTime := t }
      else
        .ok l

/-- Result of a mutating operation: the error (if any), the store state
after the call, and the file state after the call. -/
structure MutResult where
  err : Option GoErr
  st : LocalStore
  fs : FsFile
deriving DecidableEq

/-- `LocalStore.Store key value`: freshness check, argument validation,
serialize + encrypt, insert into the mapping, persist the whole mapping.
`value = none` models Go's `nil` value; `nonce` is the fresh random nonce
drawn by the encryption; `sv` the outcome of the `SaveSecrets` write. -/
def LocalStore.store (l : LocalStore) (f : FsFile) (key : String)
    (value : Option ValueMap) (nonce : Nat) (sv : SaveOutcome) : MutResult :=
  match l.reloadIfChanged f with
  | .error e => ⟨some e, l, f⟩
  | .ok l₁ =>
      if key = "" then ⟨some .emptyKey, l₁, f⟩
      else
        match value with
        | none => ⟨some .nilValue, l₁, f⟩
        | some data =>
            let derivedKey := deriveAESKey l₁.masterKey key
            let encryptedSecret := encryptAESGCM derivedKey data nonce
            let secrets := smapInsert l₁.secrets key encryptedSecret
            let l₂ := { l₁ with secrets := secrets }
            let (err, f₂) := SaveSecrets sv secrets f
            ⟨err, l₂, f₂⟩

/-- Result of `Lookup` / `LookupKeys`: the value or error, and the store
state after the call (these operations never write the file). -/
structure ReadResult (α : Type) where
  res : Except GoErr α
  st : LocalStore

/-- `LocalStore.Lookup key &output`: freshness check, argument validation,
map read, decrypt under the derived key, deserialize into the output. -/
def LocalStore.lookup (l : LocalStore) (f : FsFile) (key : String) :
    ReadResult ValueMap :=
  match l.reloadIfChanged f with
  | .error e => ⟨.error e, l⟩
  | .ok l₁ =>
      if key = "" then ⟨.error .emptyKey, l₁⟩
      else
        match smapFind l₁.secrets key with
        | none => ⟨.error (.notFound key), l₁⟩
        | some encrypted =>
            let derivedKey := deriveAESKey l₁.masterKey key
            match decryptAESGCM derivedKey encrypted with
            | none => ⟨.error .decryptFailed, l₁⟩
            | some decrypted => ⟨.ok decrypted, l₁⟩

/-- `LocalStore.Delete key`: freshness check, argument validation,
existence check, remove the entry, persist the whole mapping. -/
def LocalStore.delete (l : LocalStore) (f : FsFile) (key : String)
    (sv : SaveOutcome) : MutResult :=
  match l.reloadIfChanged f with
  | .error e => ⟨some e, l, f⟩
  | .ok l₁ =>
      if key = "" then ⟨some .emptyKey, l₁, f⟩
      else
        match smapFind l₁.secrets key with
        | none => ⟨some (.notFound key), l₁, f⟩
        | some _ =>
            let secrets := smapErase l₁.secrets key
            let l₂ := { l₁ with secrets := secrets }
            let (err, f₂) := SaveSecrets sv secrets f
            match err with
            | some _ => ⟨some .saveAfterDeleteFailed, l₂, f₂⟩
            | none => ⟨none, l₂, f₂⟩

/-- `LocalStore.lookupKeys keyPath`: freshness check, then return all keys
of the mapping; the `keyPath` parameter is ignored.  (The source's
`l.Secrets == nil` guard is unrepresentable here: the association-list
model has no nil/empty distinction, and `NewLocalSecretStore` always
produces a non-nil map.) -/
def LocalStore.lookupKeys (l : LocalStore) (f : FsFile) (_keyPath : String) :
    ReadResult (List String) :=
  match l.reloadIfChanged f with
  | .error e => ⟨.error e, l⟩
  | .ok l₁ => ⟨.ok (smapKeys l₁.secrets), l₁⟩

/-! ## Remote secret adapter

The adapter implementation (`VaultAdapter`) is exercised by the provided
tests but its own source is not among the provided files; the following
definitions are modelled from the spec's authenticate-and-retry state
machine, with call shapes matching the tests' expectations. -/

/-- An error from the network client capability: a permission-denied class
error (invalid/expired token), any other backend error, or the end of the
scripted responses. -/
inductive VErr where
  | permissionDenied
  | other (msg : String)
  | scriptEnded
deriving DecidableEq

/-- A successful response payload from the client capability: it may carry
a fresh token (login responses) and structured secret data (read/list
responses). -/
structure VSecret where
  token : String
  data : ValueMap
  keys : List String
deriving DecidableEq

/-- One underlying call made on the client capability, with its path. -/
inductive VCall where
  | read (path : String)
  | write (path : String)
  | delete (path : String)
  | list (path : String)
deriving DecidableEq

/-- The client capability, as observed by the adapter: a script of
responses consumed one per underlying call (in call order), the installed
token, and the trace of calls made so far. -/
structure VClient where
  script : List (Except VErr VSecret)
  token : String
  trace : List VCall

/-- One underlying client call: record it in the trace and consume the
next scripted response. -/
def VClient.call (c : VClient) (v : VCall) : Except VErr VSecret × VClient :=
  match c.script with
  | [] => (.error .scriptEnded, { c with trace := c.trace ++ [v] })
  | r :: rest => (r, { c with script := rest, trace := c.trace ++ [v] })

/-- `SetToken`: install the active credential on the client. -/
def VClient.setToken (c : VClient) (t : String) : VClient :=
  { c with token := t }

/-- Modelled from the spec: the adapter's configuration — BasePath,
RetryBudget (`VaultRetry`), and AuthConfig with the contents of the
credential (JWT) file and role file and the login path. -/
structure VaultAdapter where
  basePath : String
  vaultRetry : Nat
  jwt : String
  role : String
  authPath : String
deriving DecidableEq

/-- Which of the four public operations is being run. -/
inductive OpKind where
  | store
  | lookup
  | del
  | listKeys
deriving DecidableEq

/-- Modelled from the spec: path policy — remote paths join BasePath with
the secret key; LookupKeys targets the base path itself as a prefix
listing (the tests expect `"secret/hms-cred/"` with a trailing slash). -/
def VaultAdapter.opCall (ss : VaultAdapter) (k : OpKind) (key : String) : VCall :=
  match k with
  | .store => .write (ss.basePath ++ "/" ++ key)
  | .lookup => .read (ss.basePath ++ "/" ++ key)
  | .del => .delete (ss.basePath ++ "/" ++ key)
  | .listKeys => .list (ss.basePath ++ "/")

/-- Modelled from the spec: `isAuthErr` — whether an error is of the
permission-denied class (the backend signals an invalid/expired token). -/
def isAuthErr (e : VErr) : Bool :=
  match e with
  | .permissionDenied => true
  | _ => false

/-- Modelled from the spec: the login exchange — submit the credential and
role to the backend's login path via the client's write call; a successful
response carries a fresh usable token. -/
def VaultAdapter.login (ss : VaultAdapter) (c : VClient) :
    Except VErr String × VClient :=
  match c.call (.write ss.authPath) with
  | (.error e, c₁) => (.error e, c₁)
  | (.ok s, c₁) => (.ok s.token, c₁)

/-- Modelled from the spec: the authenticate-and-retry loop shared by all
four operations.  Attempt the original operation; on a permission-denied
error, while budget remains, perform the login exchange, install the
returned token, and retry the original operation; a login failure or an
exhausted budget surfaces the last observed error; any non-auth response
(success or other failure) terminates the loop at once. -/
def VaultAdapter.opLoop (ss : VaultAdapter) (k : OpKind) (key : String) :
    Nat → VClient → Except VErr VSecret × VClient
  | budget, c =>
      match c.call (ss.opCall k key) with
      | (.ok s, c₁) => (.ok s, c₁)
      | (.error e, c₁) =>
          if isAuthErr e then
            match budget with
            | 0 => (.error e, c₁)
            | b + 1 =>
                match ss.login c₁ with
                | (.error le, c₂) => (.error le, c₂)
                | (.ok tok, c₂) => ss.opLoop k key b (c₂.setToken tok)
          else
            (.error e, c₁)

/-- Modelled from the spec: a public adapter operation — run the
authenticate-and-retry loop with the configured RetryBudget. -/
def VaultAdapter.runOp (ss : VaultAdapter) (k : OpKind) (key : String)
    (c : VClient) : Except VErr VSecret × VClient :=
  ss.opLoop k key ss.vaultRetry c

/-- The number of attempts of the original operation among the underlying
calls of a trace (login calls are writes to the auth path and are not
counted when the operation itself targets a different call). -/
def countOpCalls (v : VCall) (tr : List VCall) : Nat :=
  tr.countP (fun x => decide (x = v))

/-! ## Basic lemmas about the mapping operations -/

theorem smapFind_insert_self (m : SMap) (k : String) (c : Cipher) :
    smapFind (smapInsert m k c) k = some c := by
  induction m with
  | nil => simp [smapInsert, smapFind]
  | cons e rest ih =>
      obtain ⟨k₀, c₀⟩ := e
      by_cases h : k₀ = k
      · simp [smapInsert, smapFind, h]
      · simp [smapInsert, smapFind, h, ih]

theorem smapFind_none_iff_not_mem (m : SMap) (k : String) :
    smapFind m k = none ↔ k ∉ smapKeys m := by
  induction m with
  | nil => simp [smapFind, smapKeys]
  | cons e rest ih =>
      obtain ⟨k₀, c₀⟩ := e
      by_cases h : k₀ = k
      · simp [smapFind, smapKeys, h]
      · simp only [smapFind, smapKeys, h, if_false, List.map_cons, List.mem_cons]
        constructor
        · intro hnone hor
          rcases hor with heq | hmem
          · exact h heq.symm
          · exact ((ih.mp hnone) hmem)
        · intro hnot
          exact ih.mpr (fun hmem => hnot (Or.inr hmem))

/-- A small concrete ciphertext used by the witnesses below. -/
def mkC (k : String) : Cipher := ⟨0, ⟨[], k⟩, []⟩

/-- A concrete three-entry mapping used by the witnesses below. -/
def mABC : SMap := [("A", mkC "A"), ("B", mkC "B"), ("C", mkC "C")]

/-! ## Claims about the encrypted local store -/

/-- Claim C9: in `LocalStore.Store`, `Lookup`, and `Delete` the freshness
reconciliation runs before any argument validation: when it fails with a
file error, the call returns that file error — even for an empty key or a
nil value — and the store and file are left unchanged. -/
theorem c9_file_error_precedes_validation (l : LocalStore) (f : FsFile)
    (key : String) (value : Option ValueMap) (nonce : Nat) (sv : SaveOutcome)
    (e : GoErr) (hrel : l.reloadIfChanged f = .error e) :
    l.store f key value nonce sv = ⟨some e, l, f⟩ ∧
    l.lookup f key = ⟨.error e, l⟩ ∧
    l.delete f key sv = ⟨some e, l, f⟩ := by
  refine ⟨?_, ?_, ?_⟩ <;>
    simp [LocalStore.store, LocalStore.lookup, LocalStore.delete, hrel]

/-- Witness for C9: with the backing file absent, an empty-key, nil-value
Store (and empty-key Lookup/Delete) return the stat error. -/
theorem c9_witness :
    LocalStore.store ⟨[], [], 0⟩ .absent "" none 0 .failBeforeWrite
        = ⟨some .statFailed, ⟨[], [], 0⟩, .absent⟩ ∧
    LocalStore.lookup ⟨[], [], 0⟩ .absent ""
        = ⟨.error .statFailed, ⟨[], [], 0⟩⟩ ∧
    LocalStore.delete ⟨[], [], 0⟩ .absent "" .failBeforeWrite
        = ⟨some .statFailed, ⟨[], [], 0⟩, .absent⟩ :=
  c9_file_error_precedes_validation ⟨[], [], 0⟩ .absent "" none 0
    .failBeforeWrite .statFailed rfl

/-- Claim C6 counterexample: with the backing file absent, the empty-key
calls fail with the stat error and not with the invalid-argument (empty
key) error, so they do not always fail with invalid-argument. -/
theorem c6_counterexample :
    (LocalStore.store ⟨[], [], 0⟩ .absent "" (some []) 0 (.ok 1)).err
        = some .statFailed ∧
    some GoErr.statFailed ≠ some GoErr.emptyKey ∧
    (LocalStore.lookup ⟨[], [], 0⟩ .absent "").res = .error .statFailed ∧
    (LocalStore.delete ⟨[], [], 0⟩ .absent "" (.ok 1)).err = some .statFailed :=
  ⟨rfl, by decide, rfl, rfl⟩

/-- Claim C6 (amended): an empty-key Store/Lookup/Delete never succeeds;
whenever the freshness reconciliation succeeds it fails with precisely the
invalid-argument (empty key) error, for every store state and every
value argument; when the reconciliation fails, the reconciliation error is
returned instead (and the call still fails). -/
theorem c6_empty_key_rejection (l : LocalStore) (f : FsFile)
    (value : Option ValueMap) (nonce : Nat) (sv : SaveOutcome) :
    (∀ l₁, l.reloadIfChanged f = .ok l₁ →
      l.store f "" value nonce sv = ⟨some .emptyKey, l₁, f⟩ ∧
      l.lookup f "" = ⟨.error .emptyKey, l₁⟩ ∧
      l.delete f "" sv = ⟨some .emptyKey, l₁, f⟩) ∧
    (l.store f "" value nonce sv).err ≠ none ∧
    (∀ v, (l.lookup f "").res ≠ .ok v) ∧
    (l.delete f "" sv).err ≠ none := by
  cases hc : l.reloadIfChanged f with
  | error e =>
      refine ⟨fun l₂ h => ?_, ?_, ?_, ?_⟩
      · simp at h
      · simp [LocalStore.store, hc]
      · simp [LocalStore.lookup, hc]
      · simp [LocalStore.delete, hc]
  | ok l₁ =>
      refine ⟨fun l₂ h => ?_, ?_, ?_, ?_⟩
      · injection h with h₂
        subst h₂
        refine ⟨?_, ?_, ?_⟩ <;>
          simp [LocalStore.store, LocalStore.lookup, LocalStore.delete, hc]
      · simp [LocalStore.store, hc]
      · simp [LocalStore.lookup, hc]
      · simp [LocalStore.delete, hc]

/-- Witness for the amended C6: on a store whose file matches memory, the
empty-key calls return the empty-key error; on an absent file they fail
with the stat error. -/
theorem c6_witness :
    (LocalStore.store ⟨[], mABC, 5⟩ (.good 5 mABC) "" (some []) 0
        (.ok 6) = ⟨some .emptyKey, ⟨[], mABC, 5⟩, .good 5 mABC⟩ ∧
      LocalStore.lookup ⟨[], mABC, 5⟩ (.good 5 mABC) ""
        = ⟨.error .emptyKey, ⟨[], mABC, 5⟩⟩ ∧
      LocalStore.delete ⟨[], mABC, 5⟩ (.good 5 mABC) "" (.ok 6)
        = ⟨some .emptyKey, ⟨[], mABC, 5⟩, .good 5 mABC⟩) ∧
    (LocalStore.store ⟨[], [], 0⟩ .absent "" (some []) 0 (.ok 1)).err ≠ none :=
  ⟨(c6_empty_key_rejection ⟨[], mABC, 5⟩ (.good 5 mABC) (some []) 0
      (.ok 6)).1 ⟨[], mABC, 5⟩ rfl,
   (c6_empty_key_rejection ⟨[], [], 0⟩ .absent (some []) 0 (.ok 1)).2.1⟩

/-- Claim C7: for a non-empty key absent from the mapping (as reconciled
with the file), Lookup and Delete fail with the not-found error — Delete
of an absent key is an error, not an idempotent no-op — and LookupKeys
never includes the key in its result. -/
theorem c7_absent_key_semantics (l l₁ : LocalStore) (f : FsFile)
    (key : String) (sv : SaveOutcome) (kp : String)
    (hrel : l.reloadIfChanged f = .ok l₁) (hkey : key ≠ "")
    (habs : smapFind l₁.secrets key = none) :
    (l.lookup f key).res = .error (.notFound key) ∧
    (l.delete f key sv).err = some (.notFound key) ∧
    ∀ ks, (l.lookupKeys f kp).res = .ok ks → key ∉ ks := by
  refine ⟨?_, ?_, ?_⟩
  · simp [LocalStore.lookup, hrel, hkey, habs]
  · simp [LocalStore.delete, hrel, hkey, habs]
  · intro ks hks
    have hks2 : ks = smapKeys l₁.secrets := by
      simp [LocalStore.lookupKeys, hrel] at hks
      exact hks.symm
    rw [hks2]
    exact (smapFind_none_iff_not_mem _ _).mp habs

/-- Witness for C7: looking up / deleting the never-stored key `"X"` on a
three-key store fails with not-found, and LookupKeys omits it. -/
theorem c7_witness :
    (LocalStore.lookup ⟨[], mABC, 5⟩ (.good 5 mABC) "X").res
        = .error (.notFound "X") ∧
    (LocalStore.delete ⟨[], mABC, 5⟩ (.good 5 mABC) "X" (.ok 6)).err
        = some (.notFound "X") ∧
    ∀ ks, (LocalStore.lookupKeys ⟨[], mABC, 5⟩ (.good 5 mABC) "kp").res
        = .ok ks → "X" ∉ ks :=
  c7_absent_key_semantics ⟨[], mABC, 5⟩ ⟨[], mABC, 5⟩ (.good 5 mABC) "X"
    (.ok 6) "kp" rfl (by decide) rfl

/-- Claim C8: whenever the freshness reconciliation succeeds, LookupKeys
succeeds and returns exactly the keys present in the (reconciled) mapping,
and its result does not depend on the keyPath parameter. -/
theorem c8_lookupKeys_complete (l l₁ : LocalStore) (f : FsFile) (kp : String)
    (hrel : l.reloadIfChanged f = .ok l₁) :
    (l.lookupKeys f kp).res = .ok (smapKeys l₁.secrets) ∧
    (∀ k, k ∈ smapKeys l₁.secrets ↔ smapFind l₁.secrets k ≠ none) ∧
    (∀ kp₂, l.lookupKeys f kp = l.lookupKeys f kp₂) := by
  refine ⟨by simp [LocalStore.lookupKeys, hrel], fun k => ?_, fun kp₂ => rfl⟩
  rw [Ne, smapFind_none_iff_not_mem]
  exact not_not.symm

/-- Witness for C8: after storing keys A, B, C the enumeration returns
exactly those keys, whatever the keyPath argument. -/
theorem c8_witness :
    (LocalStore.lookupKeys ⟨[], mABC, 5⟩ (.good 5 mABC) "ignored").res
        = .ok ["A", "B", "C"] ∧
    LocalStore.lookupKeys ⟨[], mABC, 5⟩ (.good 5 mABC) "ignored"
        = LocalStore.lookupKeys ⟨[], mABC, 5⟩ (.good 5 mABC) "other" := by
  have h := c8_lookupKeys_complete ⟨[], mABC, 5⟩ ⟨[], mABC, 5⟩
    (.good 5 mABC) "ignored" rfl
  exact ⟨h.1, h.2.2 "other"⟩

/-! ## The freshness reconciliation, characterized -/

theorem reload_stat_error (l : LocalStore) (f : FsFile) (e : GoErr)
    (h : getModTime f = .error e) : l.reloadIfChanged f = .error e := by
  simp [LocalStore.reloadIfChanged, h]

theorem reload_load_error (l : LocalStore) (f : FsFile) (t : Nat) (e : GoErr)
    (ht : getModTime f = .ok t) (hlt : l.lastModTime < t)
    (hl : loadSecrets f = .error e) : l.reloadIfChanged f = .error e := by
  simp [LocalStore.reloadIfChanged, ht, hlt, hl]

theorem reload_replaces (l : LocalStore) (f : FsFile) (t : Nat) (m : SMap)
    (ht : getModTime f = .ok t) (hlt : l.lastModTime < t)
    (hm : loadSecrets f = .ok m) :
    l.reloadIfChanged f = .ok { l with secrets := m, lastModTime := t } := by
  simp [LocalStore.reloadIfChanged, ht, hlt, hm]

theorem reload_self (l : LocalStore) (f : FsFile) (t : Nat)
    (ht : getModTime f = .ok t) (hle : ¬ l.lastModTime < t) :
    l.reloadIfChanged f = .ok l := by
  simp [LocalStore.reloadIfChanged, ht, hle]

/-- Claim C3: every operation first compares the recorded timestamp with
the file's current modification time.  (i) If reading the modification
time fails, each of the four operations returns that error with the state
unchanged.  (ii) If the file is newer and the fresh load fails, each
operation returns the load error with the state unchanged.  (iii) If the
file is newer and the fresh load succeeds, each operation behaves exactly
as on the store whose in-memory mapping has been fully replaced by the
file's content (with the file's timestamp recorded). -/
theorem c3_freshness_checked (l : LocalStore) (f : FsFile) (key : String)
    (value : Option ValueMap) (nonce : Nat) (sv : SaveOutcome) (kp : String) :
    (∀ e, getModTime f = .error e →
      l.store f key value nonce sv = ⟨some e, l, f⟩ ∧
      l.lookup f key = ⟨.error e, l⟩ ∧
      l.delete f key sv = ⟨some e, l, f⟩ ∧
      l.lookupKeys f kp = ⟨.error e, l⟩) ∧
    (∀ t e, getModTime f = .ok t → l.lastModTime < t →
      loadSecrets f = .error e →
      l.store f key value nonce sv = ⟨some e, l, f⟩ ∧
      l.lookup f key = ⟨.error e, l⟩ ∧
      l.delete f key sv = ⟨some e, l, f⟩ ∧
      l.lookupKeys f kp = ⟨.error e, l⟩) ∧
    (∀ t m, getModTime f = .ok t → l.lastModTime < t →
      loadSecrets f = .ok m →
      l.store f key value nonce sv
        = LocalStore.store { l with secrets := m, lastModTime := t }
            f key value nonce sv ∧
      l.lookup f key
        = LocalStore.lookup { l with secrets := m, lastModTime := t } f key ∧
      l.delete f key sv
        = LocalStore.delete { l with secrets := m, lastModTime := t } f key sv ∧
      l.lookupKeys f kp
        = LocalStore.lookupKeys { l with secrets := m, lastModTime := t } f kp) := by
  refine ⟨fun e he => ?_, fun t e ht hlt hl => ?_, fun t m ht hlt hm => ?_⟩
  · have hr := reload_stat_error l f e he
    exact ⟨by simp [LocalStore.store, hr], by simp [LocalStore.lookup, hr],
      by simp [LocalStore.delete, hr], by simp [LocalStore.lookupKeys, hr]⟩
  · have hr := reload_load_error l f t e ht hlt hl
    exact ⟨by simp [LocalStore.store, hr], by simp [LocalStore.lookup, hr],
      by simp [LocalStore.delete, hr], by simp [LocalStore.lookupKeys, hr]⟩
  · have hr := reload_replaces l f t m ht hlt hm
    have hr₂ : LocalStore.reloadIfChanged
        { l with secrets := m, lastModTime := t } f
        = .ok { l with secrets := m, lastModTime := t } :=
      reload_self _ f t ht (by simp)
    exact ⟨by simp [LocalStore.store, hr, hr₂],
      by simp [LocalStore.lookup, hr, hr₂],
      by simp [LocalStore.delete, hr, hr₂],
      by simp [LocalStore.lookupKeys, hr, hr₂]⟩

/-- Witness for C3: an externally advanced file makes Lookup behave as on
the freshly loaded store, and an absent file makes Store fail with the
stat error. -/
theorem c3_witness :
    LocalStore.lookup ⟨[], [], 0⟩ (.good 3 mABC) "A"
        = LocalStore.lookup ⟨[], mABC, 3⟩ (.good 3 mABC) "A" ∧
    LocalStore.store ⟨[], [], 0⟩ .absent "k" (some []) 0 (.ok 1)
        = ⟨some .statFailed, ⟨[], [], 0⟩, .absent⟩ := by
  have h₁ := (c3_freshness_checked ⟨[], [], 0⟩ (.good 3 mABC) "A" (some []) 0
    (.ok 1) "kp").2.2 3 mABC rfl (by decide) rfl
  have h₂ := (c3_freshness_checked ⟨[], [], 0⟩ .absent "k" (some []) 0
    (.ok 1) "kp").1 .statFailed rfl
  exact ⟨h₁.2.1, h₂.1⟩

/-! ## Shapes of successful and failed mutations -/

/-- The ciphertext a Store of `(key, v)` produces on a store with the
given master key. -/
def storeCipher (mk : List Nat) (key : String) (v : ValueMap) (nonce : Nat) : Cipher :=
  encryptAESGCM (deriveAESKey mk key) v nonce

theorem store_ok_shape (l l₁ : LocalStore) (f : FsFile) (key : String)
    (v : ValueMap) (nonce : Nat) (t' : Nat)
    (hrel : l.reloadIfChanged f = .ok l₁) (hkey : key ≠ "") :
    l.store f key (some v) nonce (.ok t')
      = ⟨none, { l₁ with secrets := smapInsert l₁.secrets key (storeCipher l₁.masterKey key v nonce) },
         .good t' (smapInsert l₁.secrets key (storeCipher l₁.masterKey key v nonce))⟩ := by
  simp [LocalStore.store, storeCipher, hrel, hkey, SaveSecrets]

theorem lookup_found (l l₁ : LocalStore) (f : FsFile) (key : String) (c : Cipher)
    (hrel : l.reloadIfChanged f = .ok l₁) (hkey : key ≠ "")
    (hfind : smapFind l₁.secrets key = some c)
    (hdk : c.dkey = deriveAESKey l₁.masterKey key) :
    (l.lookup f key).res = .ok c.payload := by
  simp [LocalStore.lookup, hrel, hkey, hfind, decryptAESGCM, hdk]

theorem delete_ok_shape (l l₁ : LocalStore) (f : FsFile) (key : String)
    (c : Cipher) (t' : Nat)
    (hrel : l.reloadIfChanged f = .ok l₁) (hkey : key ≠ "")
    (hfind : smapFind l₁.secrets key = some c) :
    l.delete f key (.ok t')
      = ⟨none, { l₁ with secrets := smapErase l₁.secrets key },
         .good t' (smapErase l₁.secrets key)⟩ := by
  simp [LocalStore.delete, hrel, hkey, hfind, SaveSecrets]

/-- Claim C2: round trip — when `Store` of a non-empty key and non-nil
value succeeds (the persist wrote the file at some time `t'`), a `Lookup`
of the same key on the resulting store and unmodified file succeeds and
returns exactly the stored value, raw byte payloads included. -/
theorem c2_store_lookup_roundtrip (l : LocalStore) (f : FsFile) (key : String)
    (v : ValueMap) (nonce : Nat) (t' : Nat) (hkey : key ≠ "")
    (hok : (l.store f key (some v) nonce (.ok t')).err = none) :
    ((l.store f key (some v) nonce (.ok t')).st.lookup
        (l.store f key (some v) nonce (.ok t')).fs key).res = .ok v := by
  cases hc : l.reloadIfChanged f with
  | error e => simp [LocalStore.store, hc] at hok
  | ok l₁ =>
      rw [store_ok_shape l l₁ f key v nonce t' hc hkey]
      by_cases hlt : l₁.lastModTime < t'
      · exact lookup_found _ _ _ key (storeCipher l₁.masterKey key v nonce)
          (reload_replaces _ _ t' _ rfl hlt rfl) hkey (smapFind_insert_self _ _ _) rfl
      · exact lookup_found _ _ _ key (storeCipher l₁.masterKey key v nonce)
          (reload_self _ _ t' rfl hlt) hkey (smapFind_insert_self _ _ _) rfl

/-- Witness for C2: a value carrying a raw byte payload survives the
Store/Lookup round trip on a concrete store. -/
theorem c2_witness :
    (LocalStore.store ⟨[1, 2], [], 0⟩ (.good 0 []) "k"
        (some [("ID", .str "x"), ("Data", .bytes [0, 1, 2, 3])]) 7 (.ok 1)).err
        = none ∧
    ((LocalStore.store ⟨[1, 2], [], 0⟩ (.good 0 []) "k"
        (some [("ID", .str "x"), ("Data", .bytes [0, 1, 2, 3])]) 7 (.ok 1)).st.lookup
      (LocalStore.store ⟨[1, 2], [], 0⟩ (.good 0 []) "k"
        (some [("ID", .str "x"), ("Data", .bytes [0, 1, 2, 3])]) 7 (.ok 1)).fs
      "k").res
        = .ok [("ID", .str "x"), ("Data", .bytes [0, 1, 2, 3])] :=
  ⟨rfl, c2_store_lookup_roundtrip ⟨[1, 2], [], 0⟩ (.good 0 []) "k"
    [("ID", .str "x"), ("Data", .bytes [0, 1, 2, 3])] 7 1 (by decide) rfl⟩

/-- Claim C1 counterexample: on an empty store whose file matches memory,
a Store whose persist fails (before touching the file) reports an error,
yet the key has become observable on the same instance: Lookup of "k"
succeeds afterwards although it failed with not-found before the call —
the operation is half-applied as seen through the public contract. -/
theorem c1_counterexample :
    (LocalStore.store ⟨[], [], 0⟩ (.good 0 []) "k"
        (some [("a", .str "b")]) 0 .failBeforeWrite).err = some .saveFailed ∧
    (LocalStore.lookup ⟨[], [], 0⟩ (.good 0 []) "k").res
        = .error (.notFound "k") ∧
    ((LocalStore.store ⟨[], [], 0⟩ (.good 0 []) "k"
        (some [("a", .str "b")]) 0 .failBeforeWrite).st.lookup
      (LocalStore.store ⟨[], [], 0⟩ (.good 0 []) "k"
        (some [("a", .str "b")]) 0 .failBeforeWrite).fs "k").res
        = .ok [("a", .str "b")] :=
  ⟨rfl, rfl, rfl⟩

/-- Claim C1 (amended): when the persist step fails before writing the
file, Store and Delete report the failure and leave the file unchanged,
but the in-memory mapping retains the mutation — Store leaves the new
entry inserted and Delete leaves the entry removed — so the half-applied
state is observable through subsequent Lookup/LookupKeys on the same
instance. -/
theorem c1_failed_persist_half_applied (l l₁ : LocalStore) (f : FsFile)
    (key : String) (v : ValueMap) (nonce : Nat)
    (hrel : l.reloadIfChanged f = .ok l₁) (hkey : key ≠ "") :
    (l.store f key (some v) nonce .failBeforeWrite
        = ⟨some .saveFailed, { l₁ with secrets := smapInsert l₁.secrets key (storeCipher l₁.masterKey key v nonce) }, f⟩) ∧
    (∀ c, smapFind l₁.secrets key = some c →
      l.delete f key .failBeforeWrite
        = ⟨some .saveAfterDeleteFailed,
           { l₁ with secrets := smapErase l₁.secrets key }, f⟩) := by
  constructor
  · simp [LocalStore.store, storeCipher, hrel, hkey, SaveSecrets]
  · intro c hfind
    simp [LocalStore.delete, hrel, hkey, hfind, SaveSecrets]

/-- Witness for the amended C1: a concrete failed Store keeps the inserted
entry and a concrete failed Delete keeps the entry removed. -/
theorem c1_witness :
    LocalStore.store ⟨[], mABC, 5⟩ (.good 5 mABC) "A" (some []) 3
        .failBeforeWrite
      = ⟨some .saveFailed,
         ⟨[], smapInsert mABC "A" (encryptAESGCM (deriveAESKey [] "A") [] 3),
          5⟩, .good 5 mABC⟩ ∧
    LocalStore.delete ⟨[], mABC, 5⟩ (.good 5 mABC) "A" .failBeforeWrite
      = ⟨some .saveAfterDeleteFailed, ⟨[], smapErase mABC "A", 5⟩,
         .good 5 mABC⟩ := by
  have h := c1_failed_persist_half_applied ⟨[], mABC, 5⟩ ⟨[], mABC, 5⟩
    (.good 5 mABC) "A" [] 3 rfl (by decide)
  exact ⟨h.1, h.2 (mkC "A") rfl⟩

/-- Claim C10: a successful Store or Delete rewrites the backing file at
the new modification time but leaves the store's recorded last-observed
timestamp unchanged; consequently the next operation's freshness check
sees the file as newer and fully reloads the mapping from disk (the
reconciliation takes the reload branch and installs the file's timestamp
and content). -/
theorem c10_save_leaves_stale_timestamp (l l₁ : LocalStore) (f : FsFile)
    (key : String) (v : ValueMap) (nonce : Nat) (t' : Nat)
    (hrel : l.reloadIfChanged f = .ok l₁) (hkey : key ≠ "")
    (hfresh : l₁.lastModTime < t') :
    ((l.store f key (some v) nonce (.ok t')).err = none ∧
     (l.store f key (some v) nonce (.ok t')).st.lastModTime
        = l₁.lastModTime ∧
     (l.store f key (some v) nonce (.ok t')).fs
        = .good t' (l.store f key (some v) nonce (.ok t')).st.secrets ∧
     (l.store f key (some v) nonce (.ok t')).st.reloadIfChanged
        (l.store f key (some v) nonce (.ok t')).fs
        = .ok { (l.store f key (some v) nonce (.ok t')).st with
                lastModTime := t' }) ∧
    (∀ c, smapFind l₁.secrets key = some c →
      (l.delete f key (.ok t')).err = none ∧
      (l.delete f key (.ok t')).st.lastModTime = l₁.lastModTime ∧
      (l.delete f key (.ok t')).fs
        = .good t' (l.delete f key (.ok t')).st.secrets ∧
      (l.delete f key (.ok t')).st.reloadIfChanged (l.delete f key (.ok t')).fs
        = .ok { (l.delete f key (.ok t')).st with lastModTime := t' }) := by
  constructor
  · rw [store_ok_shape l l₁ f key v nonce t' hrel hkey]
    refine ⟨rfl, rfl, rfl, ?_⟩
    exact reload_replaces _ _ t' _ rfl hfresh rfl
  · intro c hfind
    rw [delete_ok_shape l l₁ f key c t' hrel hkey hfind]
    refine ⟨rfl, rfl, rfl, ?_⟩
    exact reload_replaces _ _ t' _ rfl hfresh rfl

/-- Witness for C10: a concrete successful Store and Delete each leave the
recorded timestamp at its pre-save value while the file carries the newer
time, and the next freshness check reloads. -/
theorem c10_witness :
    (LocalStore.store ⟨[], mABC, 5⟩ (.good 5 mABC) "A" (some []) 3
        (.ok 6)).err = none ∧
    (LocalStore.store ⟨[], mABC, 5⟩ (.good 5 mABC) "A" (some []) 3
        (.ok 6)).st.lastModTime = 5 ∧
    (LocalStore.store ⟨[], mABC, 5⟩ (.good 5 mABC) "A" (some []) 3
        (.ok 6)).st.reloadIfChanged
      (LocalStore.store ⟨[], mABC, 5⟩ (.good 5 mABC) "A" (some []) 3
        (.ok 6)).fs
        = .ok { (LocalStore.store ⟨[], mABC, 5⟩ (.good 5 mABC) "A" (some []) 3
            (.ok 6)).st with lastModTime := 6 } ∧
    (LocalStore.delete ⟨[], mABC, 5⟩ (.good 5 mABC) "A" (.ok 6)).err = none := by
  have h := c10_save_leaves_stale_timestamp ⟨[], mABC, 5⟩ ⟨[], mABC, 5⟩
    (.good 5 mABC) "A" [] 3 6 rfl (by decide) (by decide)
  exact ⟨h.1.1, h.1.2.1, h.1.2.2.2, (h.2 (mkC "A") rfl).1⟩

/-! ## Claims about the remote secret adapter -/

theorem call_trace (c : VClient) (v : VCall) :
    (c.call v).2.trace = c.trace ++ [v] := by
  cases hs : c.script <;> simp [VClient.call, hs]

theorem login_snd (ss : VaultAdapter) (c : VClient) :
    (ss.login c).2 = (c.call (.write ss.authPath)).2 := by
  rcases h : c.call (.write ss.authPath) with ⟨r, c₁⟩
  cases r <;> simp [VaultAdapter.login, h]

theorem countOpCalls_append_one (v : VCall) (tr : List VCall) (w : VCall) :
    countOpCalls v (tr ++ [w])
      = countOpCalls v tr + (if w = v then 1 else 0) := by
  by_cases h : w = v <;> simp [countOpCalls, List.countP_append, h]

/-- Claim C4 (adapter modelled from the spec): for each of the four
operations, if the client's first underlying call returns
permission-denied and the retried call after a successful login exchange
succeeds, then the public operation returns success and the underlying
call sequence is exactly [failed original op, login, retried original
op]. -/
theorem c4_auth_retry_success (ss : VaultAdapter) (k : OpKind) (key : String)
    (sLogin sOk : VSecret) (tok : String) (hbudget : 1 ≤ ss.vaultRetry) :
    (ss.runOp k key ⟨[.error .permissionDenied, .ok sLogin, .ok sOk], tok, []⟩).1
        = .ok sOk ∧
    (ss.runOp k key ⟨[.error .permissionDenied, .ok sLogin, .ok sOk], tok, []⟩).2.trace
        = [ss.opCall k key, .write ss.authPath, ss.opCall k key] := by
  obtain ⟨b, hb⟩ := Nat.exists_eq_add_of_le hbudget
  rw [Nat.add_comm] at hb
  constructor <;>
    simp [VaultAdapter.runOp, hb, VaultAdapter.opLoop, VClient.call,
      VaultAdapter.login, VClient.setToken, isAuthErr]

/-- Witness for C4: the test scenario — a 403 on the first call, a
successful Kubernetes login, and a successful retry — succeeds with the
exact call sequence [op, login, op]. -/
theorem c4_witness :
    (VaultAdapter.runOp ⟨"secret/hms-cred", 1, "jwt", "role", "auth/kubernetes/login"⟩
        .lookup "x0c0s1b0"
        ⟨[.error .permissionDenied, .ok ⟨"tok2", [], []⟩, .ok ⟨"", [("Username", .str "test1")], []⟩], "", []⟩).1
        = .ok ⟨"", [("Username", .str "test1")], []⟩ ∧
    (VaultAdapter.runOp ⟨"secret/hms-cred", 1, "jwt", "role", "auth/kubernetes/login"⟩
        .lookup "x0c0s1b0"
        ⟨[.error .permissionDenied, .ok ⟨"tok2", [], []⟩, .ok ⟨"", [("Username", .str "test1")], []⟩], "", []⟩).2.trace
        = [.read "secret/hms-cred/x0c0s1b0", .write "auth/kubernetes/login", .read "secret/hms-cred/x0c0s1b0"] :=
  c4_auth_retry_success ⟨"secret/hms-cred", 1, "jwt", "role", "auth/kubernetes/login"⟩
    .lookup "x0c0s1b0" ⟨"tok2", [], []⟩ ⟨"", [("Username", .str "test1")], []⟩ ""
    (by decide)

/-- A client script that answers permission-denied to every attempt of the
original operation and success (with a fresh token) to every login. -/
def deniedScript : Nat → List (Except VErr VSecret)
  | 0 => [.error .permissionDenied]
  | n + 1 => .error .permissionDenied :: .ok ⟨"tok", [], []⟩ :: deniedScript n

theorem opLoop_attempts_bound (ss : VaultAdapter) (k : OpKind) (key : String)
    (hne : VCall.write ss.authPath ≠ ss.opCall k key) :
    ∀ budget c,
      countOpCalls (ss.opCall k key) ((ss.opLoop k key budget c).2.trace)
        ≤ countOpCalls (ss.opCall k key) c.trace + (budget + 1) := by
  intro budget
  induction budget with
  | zero =>
      intro c
      rw [VaultAdapter.opLoop]
      rcases hr : c.call (ss.opCall k key) with ⟨r, c₁⟩
      have h1 : countOpCalls (ss.opCall k key) c₁.trace
          = countOpCalls (ss.opCall k key) c.trace + 1 := by
        have h := call_trace c (ss.opCall k key)
        rw [hr] at h
        rw [h, countOpCalls_append_one]
        simp
      cases r with
      | ok s => simp [h1]
      | error e => by_cases ha : isAuthErr e <;> simp [ha, h1]
  | succ b ih =>
      intro c
      rw [VaultAdapter.opLoop]
      rcases hr : c.call (ss.opCall k key) with ⟨r, c₁⟩
      have h1 : countOpCalls (ss.opCall k key) c₁.trace
          = countOpCalls (ss.opCall k key) c.trace + 1 := by
        have h := call_trace c (ss.opCall k key)
        rw [hr] at h
        rw [h, countOpCalls_append_one]
        simp
      cases r with
      | ok s =>
          simp [h1]
          try omega
      | error e =>
          by_cases ha : isAuthErr e
          · rcases hl : ss.login c₁ with ⟨lr, c₂⟩
            have h2 : countOpCalls (ss.opCall k key) c₂.trace
                = countOpCalls (ss.opCall k key) c₁.trace := by
              have hsnd := login_snd ss c₁
              rw [hl] at hsnd
              have htr := call_trace c₁ (.write ss.authPath)
              have hx : c₂.trace = c₁.trace ++ [VCall.write ss.authPath] := by
                rw [← htr, ← hsnd]
              rw [hx, countOpCalls_append_one, if_neg hne]
              simp
            cases lr with
            | error le =>
                simp [ha, hl, h2, h1]
                try omega
            | ok tok =>
                have h3 := ih (c₂.setToken tok)
                have h4 : (c₂.setToken tok).trace = c₂.trace := rfl
                rw [h4, h2, h1] at h3
                simp [ha, hl]
                try omega
          · simp [ha, h1]
            try omega

theorem opLoop_denied_step (ss : VaultAdapter) (k : OpKind) (key : String)
    (m : Nat) (rest : List (Except VErr VSecret)) (tok : String)
    (tr : List VCall) :
    ss.opLoop k key (m + 1)
        ⟨.error .permissionDenied :: .ok ⟨"tok", [], []⟩ :: rest, tok, tr⟩
      = ss.opLoop k key m
          ⟨rest, "tok", tr ++ [ss.opCall k key, .write ss.authPath]⟩ := by
  rw [VaultAdapter.opLoop]
  simp [VClient.call, isAuthErr, VaultAdapter.login, VClient.setToken]

theorem opLoop_denied (ss : VaultAdapter) (k : OpKind) (key : String)
    (hne : VCall.write ss.authPath ≠ ss.opCall k key) :
    ∀ n tok tr,
      (ss.opLoop k key n ⟨deniedScript n, tok, tr⟩).1
        = .error .permissionDenied ∧
      countOpCalls (ss.opCall k key)
          ((ss.opLoop k key n ⟨deniedScript n, tok, tr⟩).2.trace)
        = countOpCalls (ss.opCall k key) tr + (n + 1) := by
  intro n
  induction n with
  | zero =>
      intro tok tr
      constructor
      · simp [VaultAdapter.opLoop, deniedScript, VClient.call, isAuthErr]
      · simp [VaultAdapter.opLoop, deniedScript, VClient.call, isAuthErr,
          countOpCalls_append_one]
  | succ m ih =>
      intro tok tr
      have h := ih "tok" (tr ++ [ss.opCall k key, .write ss.authPath])
      have hc : countOpCalls (ss.opCall k key)
          (tr ++ [ss.opCall k key, .write ss.authPath])
          = countOpCalls (ss.opCall k key) tr + 1 := by
        have he : tr ++ [ss.opCall k key, .write ss.authPath]
            = (tr ++ [ss.opCall k key]) ++ [VCall.write ss.authPath] := by
          simp
        rw [he, countOpCalls_append_one, countOpCalls_append_one]
        simp [hne]
      have hu : deniedScript (m + 1)
          = .error .permissionDenied :: .ok ⟨"tok", [], []⟩ :: deniedScript m :=
        rfl
      rw [hu, opLoop_denied_step ss k key m (deniedScript m) tok tr]
      rw [h.2, hc]
      exact ⟨h.1, by omega⟩

/-- Claim C5 (adapter modelled from the spec): the retry never runs
indefinitely — (i) for every client behavior the adapter makes at most
RetryBudget+1 underlying attempts of the original operation; (ii) when the
client answers permission-denied to every attempt (logins succeeding) the
operation returns the permission-denied authentication failure after
exactly RetryBudget+1 attempts; (iii) when the login exchange itself fails
the adapter surfaces that last observed error. -/
theorem c5_auth_retry_exhaustion (ss : VaultAdapter) (k : OpKind) (key : String)
    (hne : VCall.write ss.authPath ≠ ss.opCall k key) :
    (∀ c, countOpCalls (ss.opCall k key) ((ss.runOp k key c).2.trace)
        ≤ countOpCalls (ss.opCall k key) c.trace + (ss.vaultRetry + 1)) ∧
    (∀ tok, (ss.runOp k key ⟨deniedScript ss.vaultRetry, tok, []⟩).1
          = .error .permissionDenied ∧
      countOpCalls (ss.opCall k key)
          ((ss.runOp k key ⟨deniedScript ss.vaultRetry, tok, []⟩).2.trace)
        = ss.vaultRetry + 1) ∧
    (∀ tok m b, ss.vaultRetry = b + 1 →
      (ss.runOp k key ⟨[.error .permissionDenied, .error (.other m)], tok, []⟩).1
        = .error (.other m)) := by
  refine ⟨fun c => opLoop_attempts_bound ss k key hne ss.vaultRetry c,
    fun tok => ?_, fun tok m b hb => ?_⟩
  · have h := opLoop_denied ss k key hne ss.vaultRetry tok []
    exact ⟨h.1, by rw [VaultAdapter.runOp, h.2]; simp [countOpCalls]⟩
  · rw [VaultAdapter.runOp, hb]
    simp [VaultAdapter.opLoop, VClient.call, isAuthErr, VaultAdapter.login,
      VClient.setToken]

/-- Witness for C5: with retry budget 1 and an all-denied client the Store
operation fails with permission-denied after exactly two attempts, and a
failed login surfaces the login error. -/
theorem c5_witness :
    (VaultAdapter.runOp ⟨"secret/hms-cred", 1, "jwt", "role", "auth/kubernetes/login"⟩
        .store "x0c0s1b0" ⟨deniedScript 1, "t", []⟩).1
        = .error .permissionDenied ∧
    countOpCalls (VCall.write "secret/hms-cred/x0c0s1b0")
        ((VaultAdapter.runOp ⟨"secret/hms-cred", 1, "jwt", "role", "auth/kubernetes/login"⟩
          .store "x0c0s1b0" ⟨deniedScript 1, "t", []⟩).2.trace) = 2 ∧
    (VaultAdapter.runOp ⟨"secret/hms-cred", 1, "jwt", "role", "auth/kubernetes/login"⟩
        .store "x0c0s1b0"
        ⟨[.error .permissionDenied, .error (.other "Token Failed")], "t", []⟩).1
        = .error (.other "Token Failed") := by
  have h := c5_auth_retry_exhaustion
    ⟨"secret/hms-cred", 1, "jwt", "role", "auth/kubernetes/login"⟩
    .store "x0c0s1b0" (by decide)
  exact ⟨(h.2.1 "t").1, (h.2.1 "t").2, h.2.2 "t" "Token Failed" 0 rfl⟩

end SecureStorage
